import Mathlib

/-!
Verification of the arch-typescript-sdk transaction codec and signing
pipeline (`src/index.ts`, `src/types.ts`).

The TypeScript source is shallowly embedded: byte buffers (`Uint8Array`,
`number[]`) become `List Nat` with explicit `% 2 ^ w` wraps where the
JavaScript runtime wraps (DataView setters, `Uint8Array` coercion), strings
become Lean `String`, throwing functions return `Except String`, and the
axios transport is an oracle `RpcRequest -> RpcResponse` with an explicit
request log threaded through the calls.  External library functions used by
the SDK (noble `bytesToHex` / `hexToBytes`, Node `Buffer` hex codecs) are
embedded from their documented semantics.  The elliptic-curve primitives
(`sha256`, `schnorr.sign`, `getPublicKey`) are abstract parameters of the
definitions that call them; `secp256k1.utils.isValidPrivateKey` is embedded
concretely (32 bytes, scalar in `(0, n)` for the secp256k1 group order `n`).
-/

namespace ArchSdk

/-- Bytes of a `Uint8Array` are in `0..255`; this predicate is the embedding
of that typing fact for `List Nat` buffers. -/
def IsBytes (l : List Nat) : Prop := ∀ b ∈ l, b < 256

instance : DecidablePred IsBytes := fun l =>
  List.decidableBAll (fun b => b < 256) l

/-- Embedding of `new Uint8Array(numberArray)`: the JS `ToUint8` coercion
wraps every element modulo 256. -/
def toUint8Array (l : List Nat) : List Nat := l.map (fun b => b % 256)

/-- Embedding of `DataView.setUint32(_, value, true)` (little-endian): the
value is wrapped by `ToUint32` and laid out in 4 little-endian bytes. -/
def le4 (n : Nat) : List Nat :=
  [n % 2 ^ 32 % 256, n % 2 ^ 32 / 256 % 256,
   n % 2 ^ 32 / 256 ^ 2 % 256, n % 2 ^ 32 / 256 ^ 3 % 256]

/-- Embedding of `DataView.setBigUint64(_, BigInt(value), true)`
(little-endian): the value is wrapped by `ToBigUint64` (modulo `2^64`) and
laid out in 8 little-endian bytes. -/
def le8 (n : Nat) : List Nat :=
  [n % 2 ^ 64 % 256, n % 2 ^ 64 / 256 % 256,
   n % 2 ^ 64 / 256 ^ 2 % 256, n % 2 ^ 64 / 256 ^ 3 % 256,
   n % 2 ^ 64 / 256 ^ 4 % 256, n % 2 ^ 64 / 256 ^ 5 % 256,
   n % 2 ^ 64 / 256 ^ 6 % 256, n % 2 ^ 64 / 256 ^ 7 % 256]

/-- Hex digit character for a nibble, i.e. indexing into the lookup string
`"0123456789abcdef"` used by noble's `bytesToHex` and Node's
`Buffer.toString('hex')`. -/
def hexChar (d : Nat) : Char := Char.ofNat (if d < 10 then 48 + d else 87 + d)

/-- Embedding of noble `bytesToHex`: each byte becomes two lowercase hex
characters, `hexes[b >> 4]` then `hexes[b & 15]`.  Node's
`Buffer.from(bytes).toString('hex')` has the same semantics. -/
def bytesToHex (bs : List Nat) : String :=
  String.mk ((bs.map (fun b => [hexChar (b / 16), hexChar (b % 16)])).flatten)

/-- Numeric value of a hex digit character (`0-9`, `a-f`, `A-F`). -/
def hexDigitVal (c : Char) : Option Nat :=
  if 48 ≤ c.toNat ∧ c.toNat ≤ 57 then some (c.toNat - 48)
  else if 97 ≤ c.toNat ∧ c.toNat ≤ 102 then some (c.toNat - 87)
  else if 65 ≤ c.toNat ∧ c.toNat ≤ 70 then some (c.toNat - 55)
  else none

/-- Embedding of Node `Buffer.from(s, 'hex')`: decode successive pairs of hex
digits, stopping (and truncating the output) at the first pair that is not
two hex digits; a trailing odd character is dropped. -/
def bufferFromHex : List Char → List Nat
  | c1 :: c2 :: rest =>
    match hexDigitVal c1, hexDigitVal c2 with
    | some v1, some v2 => (16 * v1 + v2) :: bufferFromHex rest
    | _, _ => []
  | _ => []

/-- Pair-decoding loop of noble `hexToBytes`: every pair must be two hex
digits, otherwise the whole call throws. -/
def hexPairs : List Char → Except String (List Nat)
  | [] => .ok []
  | c1 :: c2 :: rest =>
    match hexDigitVal c1, hexDigitVal c2 with
    | some v1, some v2 => do
      let bs ← hexPairs rest
      .ok ((16 * v1 + v2) :: bs)
    | _, _ => .error "hexToBytes: invalid hex"
  | [_] => .error "hexToBytes: unpadded hex"

/-- Embedding of noble `hexToBytes`: rejects odd-length input, then decodes
hex digit pairs, throwing on any non-hex pair. -/
def hexToBytes (s : String) : Except String (List Nat) :=
  if s.data.length % 2 = 1 then .error "hexToBytes: unpadded hex"
  else hexPairs s.data

/-- Embedding of noble's UTF-8 string-to-bytes conversion, restricted to the
ASCII strings this SDK feeds it (hex text): each character contributes its
code point as one byte. -/
def strBytes (s : String) : List Nat := s.data.map Char.toNat

/-- Embedding of TypeScript `Array.map` over a throwing callback (and of
`Promise.all` over callbacks that reject with a common error): the first
failure aborts the whole operation. -/
def mapE (f : α → Except String β) : List α → Except String (List β)
  | [] => .ok []
  | a :: l => do
    let b ← f a
    let bs ← mapE f l
    .ok (b :: bs)

/-- Embedding of the `Pubkey` class (`src/types.ts`): a byte buffer whose
constructor has established `bytes.length === 32` (the constructor throws
otherwise, so no other instance can exist). -/
structure Pubkey where
  bytes : List Nat
  h32 : bytes.length = 32

/-- Fallible constructor `new Pubkey(bytes)` (`src/types.ts` lines 14-19):
throws `'Pubkey must be 32 bytes'` unless the buffer has length 32. -/
def mkPubkey (b : List Nat) : Except String Pubkey :=
  if h : b.length = 32 then .ok ⟨b, h⟩ else .error "Pubkey must be 32 bytes"

/-- Embedding of `Pubkey.fromString`: hex-decode via `Buffer.from(s, 'hex')`,
then require exactly 32 decoded bytes (the subsequent `new Pubkey` check can
no longer fail). -/
def Pubkey.fromString (s : String) : Except String Pubkey :=
  let bytes := bufferFromHex s.data
  if h : bytes.length = 32 then .ok ⟨bytes, h⟩
  else .error "Invalid pubkey string"

/-- Embedding of `Pubkey.toString`: `Buffer.from(bytes).toString('hex')`,
canonical lowercase hex. -/
def Pubkey.toString (p : Pubkey) : String := bytesToHex p.bytes

/-- Embedding of `Pubkey.serialize`: `Array.from(bytes)`. -/
def Pubkey.serialize (p : Pubkey) : List Nat := p.bytes

/-- Embedding of `Pubkey.systemProgram`: 32 bytes, all zero except the last
byte, which is 1. -/
def Pubkey.systemProgram : Pubkey :=
  ⟨List.replicate 31 0 ++ [1], by simp⟩

/-- Embedding of the `AccountMeta` interface. -/
structure AccountMeta where
  pubkey : Pubkey
  is_signer : Bool
  is_writable : Bool

/-- Embedding of the `Instruction` interface. -/
structure Instruction where
  program_id : Pubkey
  accounts : List AccountMeta
  data : List Nat

/-- Embedding of the `Message` interface. -/
structure Message where
  signers : List Pubkey
  instructions : List Instruction

/-- Embedding of the `RuntimeTransaction` interface; signatures are hex
strings. -/
structure RuntimeTransaction where
  version : Int
  signatures : List String
  message : Message

/-- JS boolean-to-byte conversion `b ? 1 : 0`. -/
def boolByte (b : Bool) : Nat := if b then 1 else 0

/-- Embedding of `ArchRpcClient.encodeMessage` (`src/index.ts` lines
328-358), the canonical encoder used by `signMessage` and `signTransaction`:
signer count, signer bytes, instruction count, then per instruction the
program id, account count, account metas, the data length as 8 little-endian
bytes via `setBigUint64`, and the raw data. -/
def encodeMessage (m : Message) : List Nat :=
  m.signers.length ::
    ((m.signers.map (fun signer => signer.bytes)).flatten ++
      m.instructions.length ::
        (m.instructions.map (fun instruction =>
          instruction.program_id.bytes ++
            instruction.accounts.length ::
              ((instruction.accounts.map (fun account =>
                account.pubkey.bytes ++
                  [boolByte account.is_signer, boolByte account.is_writable])).flatten ++
                (le8 instruction.data.length ++ instruction.data)))).flatten)

/-- Embedding of `ArchRpcClient.serializeMessage` (`src/index.ts` lines
163-205), the unused 4-byte-length variant of the encoder: identical layout
except that the data length is written with `setUint32` into 4 little-endian
bytes. -/
def serializeMessage (m : Message) : List Nat :=
  m.signers.length ::
    ((m.signers.map (fun signer => signer.bytes)).flatten ++
      m.instructions.length ::
        (m.instructions.map (fun inst =>
          inst.program_id.bytes ++
            inst.accounts.length ::
              ((inst.accounts.map (fun acc =>
                acc.pubkey.bytes ++
                  [boolByte acc.is_signer, boolByte acc.is_writable])).flatten ++
                (le4 inst.data.length ++ inst.data)))).flatten)

/-! Spec-side encoders, written from the words of the specification and of
claim C1, to be compared with the source-derived `encodeMessage`.  Integers
are decomposed into little-endian bytes by the recursive `leBytesSpec`
rather than by the arithmetic `le4`/`le8` forms. -/

/-- Little-endian byte decomposition of `n` into exactly `w` bytes
(spec-side formulation of a fixed-width little-endian unsigned integer). -/
def leBytesSpec : Nat → Nat → List Nat
  | 0, _ => []
  | w + 1, n => n % 256 :: leBytesSpec w (n / 256)

/-- Spec-side encoding of one account reference: 32-byte pubkey, one byte
for `is_signer`, one byte for `is_writable`. -/
def specEncodeAccount (acc : AccountMeta) : List Nat :=
  acc.pubkey.bytes ++ [boolByte acc.is_signer, boolByte acc.is_writable]

/-- Spec-side encoding of one instruction as claim C1 states it: 32-byte
program id, account count as a single byte, the accounts, the data length as
a 4-byte little-endian unsigned integer, then the raw data. -/
def specEncodeInstruction4 (inst : Instruction) : List Nat :=
  inst.program_id.bytes ++ [inst.accounts.length] ++
    (inst.accounts.map specEncodeAccount).flatten ++
    leBytesSpec 4 inst.data.length ++ inst.data

/-- The same instruction layout with an 8-byte little-endian data length. -/
def specEncodeInstruction8 (inst : Instruction) : List Nat :=
  inst.program_id.bytes ++ [inst.accounts.length] ++
    (inst.accounts.map specEncodeAccount).flatten ++
    leBytesSpec 8 inst.data.length ++ inst.data

/-- The instruction layout with an 8-byte little-endian data length taken
modulo `2^64` (the wrapped variant the code actually produces). -/
def specEncodeInstructionWrap (inst : Instruction) : List Nat :=
  inst.program_id.bytes ++ [inst.accounts.length] ++
    (inst.accounts.map specEncodeAccount).flatten ++
    leBytesSpec 8 (inst.data.length % 2 ^ 64) ++ inst.data

/-- Spec-side canonical message encoding exactly as claim C1 states it:
signer count byte, signer bytes in order, instruction count byte, then the
instructions with a 4-byte little-endian data length. -/
def specEncodeMessage4 (m : Message) : List Nat :=
  [m.signers.length] ++ (m.signers.map Pubkey.bytes).flatten ++
    [m.instructions.length] ++ (m.instructions.map specEncodeInstruction4).flatten

/-- The claimed message layout amended to an 8-byte little-endian data
length. -/
def specEncodeMessage8 (m : Message) : List Nat :=
  [m.signers.length] ++ (m.signers.map Pubkey.bytes).flatten ++
    [m.instructions.length] ++ (m.instructions.map specEncodeInstruction8).flatten

/-- The claimed message layout with the data length wrapped modulo `2^64`,
matching the `setBigUint64` semantics without any bound hypothesis. -/
def specEncodeMessageWrap (m : Message) : List Nat :=
  [m.signers.length] ++ (m.signers.map Pubkey.bytes).flatten ++
    [m.instructions.length] ++ (m.instructions.map specEncodeInstructionWrap).flatten

/-- Spec-side lowercase hexadecimal text of a byte sequence, via Mathlib's
`Nat.digitChar` (independent of the lookup-table `hexChar`). -/
def specHexChars (bs : List Nat) : List Char :=
  (bs.map (fun b => [Nat.digitChar (b / 16), Nat.digitChar (b % 16)])).flatten

/-! Digest and signing (`src/index.ts` lines 245-264).  The SHA-256
compression itself and `schnorr.sign` are library primitives; they enter the
embedding as abstract parameters `H` and `sg`. -/

/-- The signing digest computed by `signMessage`: the first hash is taken
over the canonical encoding (coerced through `new Uint8Array`), the second
over the string `bytesToHex(firstHash)` (which the hash function consumes as
its UTF-8 bytes). -/
def signDigest (H : List Nat → List Nat) (m : Message) : List Nat :=
  let firstHash := H (toUint8Array (encodeMessage m))
  H (strBytes (bytesToHex firstHash))

/-- The secp256k1 group order `n`. -/
def secpOrder : Nat :=
  0xFFFFFFFFFFFFFFFFFFFFFFFFFFFFFFFEBAAEDCE6AF48A03BBFD25E8CD0364141

/-- Big-endian interpretation of a byte buffer as a natural number. -/
def beNat (bs : List Nat) : Nat := bs.foldl (fun acc b => acc * 256 + b) 0

/-- Embedding of noble `secp256k1.utils.isValidPrivateKey` on a
`Uint8Array`: the buffer must hold exactly 32 bytes whose big-endian value
is a valid scalar, i.e. strictly between 0 and the group order. -/
def isValidPrivateKey (k : List Nat) : Bool :=
  k.length == 32 && 0 < beNat k && beNat k < secpOrder

/-- Embedding of `ArchRpcClient.signMessage` (`src/index.ts` lines 245-264),
with the hash `H` and `schnorr.sign` `sg` abstract: compute the two-stage
digest, then for each private key either reject it (`Invalid private key`)
or produce the hex encoding of its Schnorr signature over the digest. -/
def signMessage (H : List Nat → List Nat) (sg : List Nat → List Nat → List Nat)
    (m : Message) (signers : List (List Nat)) : Except String (List String) :=
  let messageHash := signDigest H m
  mapE (fun signer =>
    if isValidPrivateKey signer then
      .ok (bytesToHex (sg messageHash signer))
    else
      .error "Invalid private key") signers

/-! Wire formatting (`src/index.ts` lines 273-290). -/

/-- Wire shape of one account reference. -/
structure SerializedAccountMeta where
  pubkey : List Nat
  is_signer : Bool
  is_writable : Bool
deriving DecidableEq

/-- Wire shape of one instruction. -/
structure SerializedInstruction where
  program_id : List Nat
  accounts : List SerializedAccountMeta
  data : List Nat
deriving DecidableEq

/-- Wire shape of a message. -/
structure SerializedMessage where
  signers : List (List Nat)
  instructions : List SerializedInstruction
deriving DecidableEq

/-- Wire shape of a transaction. -/
structure SerializedTransaction where
  message : SerializedMessage
  signatures : List (List Nat)
  version : Int
deriving DecidableEq

/-- Embedding of `ArchRpcClient.serializeTransaction` (`src/index.ts` lines
273-290): every pubkey and data buffer becomes its plain byte array,
signatures are hex-decoded with noble `hexToBytes` (which can throw), and
`version` is passed through. -/
def serializeTransaction (tx : RuntimeTransaction) : Except String SerializedTransaction := do
  let sigs ← mapE hexToBytes tx.signatures
  .ok { message := {
          signers := tx.message.signers.map (fun signer => signer.bytes),
          instructions := tx.message.instructions.map (fun inst =>
            { program_id := inst.program_id.bytes,
              accounts := inst.accounts.map (fun acc =>
                { pubkey := acc.pubkey.bytes,
                  is_signer := acc.is_signer,
                  is_writable := acc.is_writable }),
              data := inst.data }) },
        signatures := sigs,
        version := tx.version }

/-! JSON-RPC layer (`src/index.ts` lines 43-56 and 212-220).  The axios
transport is an oracle `post`; the list of issued requests is threaded
explicitly, each HTTP POST appending one entry. -/

/-- One JSON-RPC request as posted by `call` (method name and params). -/
structure RpcRequest (α : Type) where
  method : String
  params : α
deriving DecidableEq

/-- The `error` object of a JSON-RPC response. -/
structure RpcError where
  message : String
deriving DecidableEq

/-- A JSON-RPC response: an optional error object and a result. -/
structure RpcResponse (β : Type) where
  error : Option RpcError
  result : β
deriving DecidableEq

/-- One `this.rpc.post(...)`: query the transport oracle and append the
request to the log. -/
def httpPost (post : RpcRequest α → RpcResponse β) (req : RpcRequest α)
    (log : List (RpcRequest α)) : RpcResponse β × List (RpcRequest α) :=
  (post req, log ++ [req])

/-- Embedding of `ArchRpcClient.call` (`src/index.ts` lines 43-56): build
the request, post it once, then either surface `error.message` as a failure
or return the `result` field verbatim. -/
def call (post : RpcRequest α → RpcResponse β) (method : String) (params : α)
    (log : List (RpcRequest α)) : Except String β × List (RpcRequest α) :=
  let req : RpcRequest α := ⟨method, params⟩
  let (response, log') := httpPost post req log
  (match response.error with
   | some err => .error err.message
   | none => .ok response.result, log')

/-- Embedding of `ArchRpcClient.sendTransaction` (`src/index.ts` lines
217-220): wire-format the transaction (a hex failure propagates before any
post), then issue one `send_transaction` call. -/
def sendTransaction (post : RpcRequest SerializedTransaction → RpcResponse String)
    (tx : RuntimeTransaction) (log : List (RpcRequest SerializedTransaction)) :
    Except String String × List (RpcRequest SerializedTransaction) :=
  match serializeTransaction tx with
  | .error e => (.error e, log)
  | .ok st => call post "send_transaction" st log

/-- Embedding of `ArchRpcClient.sendTransactions` (`src/index.ts` lines
212-215): wire-format every transaction, then issue one `send_transactions`
call carrying the whole list. -/
def sendTransactions (post : RpcRequest (List SerializedTransaction) → RpcResponse (List String))
    (txs : List RuntimeTransaction) (log : List (RpcRequest (List SerializedTransaction))) :
    Except String (List String) × List (RpcRequest (List SerializedTransaction)) :=
  match mapE serializeTransaction txs with
  | .error e => (.error e, log)
  | .ok sts => call post "send_transactions" sts log

/-! Account creation (`src/index.ts` lines 67-82, 112-122, 142-150). -/

/-- Embedding of `ArchRpcClient.encodeCreateAccountData` (`src/index.ts`
lines 142-150): a 37-byte zeroed buffer receives the instruction type 0 at
offset 0, the hex-decoded txid at offset 1 (a `RangeError` if it does not
fit), and `vout` as 4 little-endian bytes at offset 33. -/
def encodeCreateAccountData (txid : String) (vout : Nat) : Except String (List Nat) := do
  let txidBytes ← hexToBytes txid
  if txidBytes.length ≤ 36 then
    .ok (((0 :: (txidBytes ++ List.replicate (36 - txidBytes.length) 0)).take 33)
          ++ le4 vout)
  else
    .error "offset is out of bounds"

/-- Embedding of `ArchRpcClient.createCreateAccountInstruction`
(`src/index.ts` lines 112-122): the system program as program id, the new
account as the single signer/writable account reference, and the encoded
create-account payload as data. -/
def createCreateAccountInstruction (pubkey : Pubkey) (txid : String) (vout : Nat) :
    Except String Instruction := do
  let data ← encodeCreateAccountData txid vout
  .ok { program_id := Pubkey.systemProgram,
        accounts := [{ pubkey := pubkey, is_signer := true, is_writable := true }],
        data := data }

/-- Embedding of `ArchRpcClient.createMessage`. -/
def createMessage (signers : List Pubkey) (instructions : List Instruction) : Message :=
  ⟨signers, instructions⟩

/-- Embedding of the message-construction prefix of
`ArchRpcClient.createArchAccount` (`src/index.ts` lines 67-72), with the
compressed-key derivation `secp256k1.getPublicKey(_, true)` abstract: the
first byte of the 33-byte compressed public key is discarded
(`publicKey.slice(1)`), the remaining 32 bytes become the `Pubkey` that is
both the sole signer and the account of the create-account instruction. -/
def createArchAccountMessage (getPublicKey : List Nat → List Nat)
    (privateKey : List Nat) (txid : String) (vout : Nat) :
    Except String (Pubkey × Message) := do
  let publicKey := getPublicKey privateKey
  let pubkey ← mkPubkey (publicKey.drop 1)
  let instruction ← createCreateAccountInstruction pubkey txid vout
  .ok (pubkey, createMessage [pubkey] [instruction])

/-! Concrete sample values used by counterexamples and witnesses. -/

/-- A 32-byte pubkey of all `0x01` bytes (the spec's fixture signer). -/
def samplePubkey : Pubkey := ⟨List.replicate 32 1, by simp⟩

/-- A small instruction against the system program, mirroring the repo's
serialization test. -/
def sampleInstruction : Instruction :=
  ⟨Pubkey.systemProgram, [⟨samplePubkey, true, true⟩], [0, 1, 2]⟩

/-- A one-signer, one-instruction message. -/
def sampleMessage : Message := ⟨[samplePubkey], [sampleInstruction]⟩

/-- A constant stand-in hash function used to instantiate abstract hash
parameters in witnesses. -/
def sampleHash : List Nat → List Nat := fun _ => [0, 171]

/-- A valid secp256k1 private scalar (the value 1) as 32 big-endian bytes. -/
def validKey : List Nat := List.replicate 31 0 ++ [1]

/-- A data payload of length `2^64`, one past the 8-byte length-prefix
capacity. -/
def hugeData : List Nat := List.replicate (2 ^ 64) 0

/-- A message holding one instruction whose data length exceeds the length
prefix capacity. -/
def hugeMsg : Message := ⟨[], [⟨Pubkey.systemProgram, [], hugeData⟩]⟩

/-! Helper lemmas. -/

instance {ε α : Type} [DecidableEq ε] [DecidableEq α] : DecidableEq (Except ε α) := fun x y =>
  match x, y with
  | .error a, .error b =>
    if h : a = b then isTrue (by rw [h])
    else isFalse (by intro hc; cases hc; exact h rfl)
  | .error _, .ok _ => isFalse (by intro hc; cases hc)
  | .ok _, .error _ => isFalse (by intro hc; cases hc)
  | .ok a, .ok b =>
    if h : a = b then isTrue (by rw [h])
    else isFalse (by intro hc; cases hc; exact h rfl)

/-- Each hex digit character produced by `hexChar` decodes back to its
nibble. -/
theorem hexDigitVal_hexChar : ∀ d < 16, hexDigitVal (hexChar d) = some d := by decide

/-- The lookup-table digit equals the spec-side `Nat.digitChar` on
nibbles. -/
theorem hexChar_eq_digitChar : ∀ d < 16, hexChar d = Nat.digitChar d := by decide

/-- Node's `Buffer.from(_, 'hex')` inverts lowercase hex encoding of a byte
buffer. -/
theorem bufferFromHex_encode (bs : List Nat) (h : IsBytes bs) :
    bufferFromHex ((bs.map (fun b => [hexChar (b / 16), hexChar (b % 16)])).flatten) = bs := by
  induction bs with
  | nil => rfl
  | cons b l ih =>
    have hb : b < 256 := h b (by simp)
    have h1 : b / 16 < 16 := by omega
    have h2 : b % 16 < 16 := by omega
    simp only [List.map_cons, List.flatten_cons, List.cons_append, List.nil_append,
      bufferFromHex, hexDigitVal_hexChar _ h1, hexDigitVal_hexChar _ h2]
    refine congrArg₂ _ (by omega) (ih (fun x hx => h x (by simp [hx])))

/-- A `String.mk` wrapper exposes exactly its character list. -/
theorem data_mk (l : List Char) : (String.mk l).data = l := rfl

/-- The bytes the hash consumes for `bytesToHex bs` are the code points of
the spec-side lowercase hexadecimal text of `bs`. -/
theorem strBytes_bytesToHex (bs : List Nat) (h : IsBytes bs) :
    strBytes (bytesToHex bs) = (specHexChars bs).map Char.toNat := by
  unfold strBytes bytesToHex specHexChars
  rw [data_mk]
  refine congrArg _ (congrArg _ (List.map_congr_left (fun b hb => ?_)))
  have hblt : b < 256 := h b hb
  rw [hexChar_eq_digitChar _ (by omega), hexChar_eq_digitChar _ (by omega)]

/-- Mapping a total element-wise success through `mapE` returns the mapped
list. -/
theorem mapE_ok (f : α → Except String β) (g : α → β) (l : List α)
    (h : ∀ a ∈ l, f a = .ok (g a)) : mapE f l = .ok (l.map g) := by
  induction l with
  | nil => rfl
  | cons a l ih =>
    simp only [mapE, h a (by simp), ih (fun x hx => h x (by simp [hx])),
      List.map_cons]
    rfl

/-- If every element of `l` either succeeds or fails with `e`, and some
element fails, `mapE` fails with `e`. -/
theorem mapE_error (f : α → Except String β) (l : List α) (e : String)
    (hall : ∀ a ∈ l, f a = .error e ∨ ∃ b, f a = .ok b)
    (hex : ∃ a ∈ l, f a = .error e) : mapE f l = .error e := by
  induction l with
  | nil => simp at hex
  | cons a l ih =>
    rcases hall a (by simp) with ha | ⟨b, hb⟩
    · simp only [mapE, ha]; rfl
    · have : ∃ x ∈ l, f x = .error e := by
        rcases hex with ⟨x, hx, hfx⟩
        rcases List.mem_cons.mp hx with rfl | hxl
        · rw [hb] at hfx; cases hfx
        · exact ⟨x, hxl, hfx⟩
      simp only [mapE, hb, ih (fun x hx => hall x (by simp [hx])) this]
      rfl

/-- A successful `mapE` has the same length as its input. -/
theorem mapE_ok_length (f : α → Except String β) (l : List α) (r : List β)
    (h : mapE f l = .ok r) : r.length = l.length := by
  induction l generalizing r with
  | nil => cases h; rfl
  | cons a l ih =>
    rcases hfa : f a with e | b
    · rw [mapE, hfa] at h; cases h
    · rcases hml : mapE f l with e' | bs
      · rw [mapE, hfa, hml] at h; cases h
      · rw [mapE, hfa, hml] at h
        cases h
        simp [ih bs hml]

/-- A successful `mapE` is element-wise: position `i` of the output is the
successful image of position `i` of the input. -/
theorem mapE_ok_get (f : α → Except String β) (l : List α) (r : List β)
    (h : mapE f l = .ok r) :
    ∀ i (hi : i < l.length) (hi' : i < r.length),
      f (l.get ⟨i, hi⟩) = .ok (r.get ⟨i, hi'⟩) := by
  induction l generalizing r with
  | nil => intro i hi; cases hi
  | cons a l ih =>
    rcases hfa : f a with e | b
    · rw [mapE, hfa] at h; cases h
    · rcases hml : mapE f l with e' | bs
      · rw [mapE, hfa, hml] at h; cases h
      · rw [mapE, hfa, hml] at h
        cases h
        intro i hi hi'
        match i with
        | 0 => simpa using hfa
        | i + 1 => exact ih bs hml i (by simpa using hi) (by simpa using hi')

/-- A hex encoding has two characters per byte. -/
theorem bytesToHex_length (bs : List Nat) : (bytesToHex bs).length = 2 * bs.length := by
  induction bs with
  | nil => rfl
  | cons b l ih =>
    have h1 : (bytesToHex (b :: l)).length = (bytesToHex l).length + 2 := rfl
    rw [h1, ih, List.length_cons]
    omega

/-- Little-endian layout of `leBytesSpec 8` unfolded to nested divisions. -/
theorem leBytesSpec_eight (n : Nat) :
    leBytesSpec 8 n =
      [n % 256, n / 256 % 256, n / 256 / 256 % 256, n / 256 / 256 / 256 % 256,
       n / 256 / 256 / 256 / 256 % 256, n / 256 / 256 / 256 / 256 / 256 % 256,
       n / 256 / 256 / 256 / 256 / 256 / 256 % 256,
       n / 256 / 256 / 256 / 256 / 256 / 256 / 256 % 256] := rfl

/-- The `setBigUint64` embedding writes exactly the spec-side little-endian
bytes of the value wrapped modulo `2^64`. -/
theorem le8_eq_wrap (n : Nat) : le8 n = leBytesSpec 8 (n % 2 ^ 64) := by
  rw [leBytesSpec_eight]
  unfold le8
  norm_num [Nat.div_div_eq_div_mul]

/-- Below the prefix capacity, the 8-byte field is the exact little-endian
representation of the length. -/
theorem le8_eq_leBytesSpec {n : Nat} (h : n < 2 ^ 64) : le8 n = leBytesSpec 8 n := by
  rw [le8_eq_wrap, Nat.mod_eq_of_lt h]

/-- Core layout fact: the source encoder produces the claimed layout with
the data-length field wrapped modulo `2^64`. -/
theorem encodeMessage_eq_wrap (m : Message) : encodeMessage m = specEncodeMessageWrap m := by
  unfold encodeMessage specEncodeMessageWrap specEncodeInstructionWrap specEncodeAccount
  simp [le8_eq_wrap, List.append_assoc]

/-! Claim theorems. -/

/-- C1 counterexample: the canonical encoder `encodeMessage` does not
produce the claimed layout with a 4-byte little-endian data length; on the
sample one-signer, one-instruction message the outputs differ (the code
writes the data length into 8 bytes via `setBigUint64`). -/
theorem encodeMessage_ne_claimed4 :
    encodeMessage sampleMessage ≠ specEncodeMessage4 sampleMessage := by decide

/-- C1 (amended): for every message whose signer, instruction and account
counts fit one byte and whose instruction data lengths fit the prefix,
`encodeMessage` produces exactly: the signer count byte, each signer's 32
raw bytes in order, the instruction count byte, and for each instruction the
32-byte program id, the account count byte, each account's 32-byte pubkey
plus one `is_signer` and one `is_writable` byte, then the data length as an
8-byte (not 4-byte) little-endian unsigned integer, then the raw data — with
no padding, alignment, or re-sorting. -/
theorem encodeMessage_claimed_layout (m : Message)
    (_hs : m.signers.length ≤ 255) (_hi : m.instructions.length ≤ 255)
    (_ha : ∀ inst ∈ m.instructions, inst.accounts.length ≤ 255)
    (hd : ∀ inst ∈ m.instructions, inst.data.length < 2 ^ 64) :
    encodeMessage m = specEncodeMessage8 m := by
  rw [encodeMessage_eq_wrap]
  unfold specEncodeMessageWrap specEncodeMessage8
  have : m.instructions.map specEncodeInstructionWrap =
      m.instructions.map specEncodeInstruction8 := by
    refine List.map_congr_left (fun inst hinst => ?_)
    unfold specEncodeInstructionWrap specEncodeInstruction8
    rw [Nat.mod_eq_of_lt (hd inst hinst)]
  rw [this]

/-- C1 witness: the amended layout theorem applied to the sample message. -/
theorem encodeMessage_claimed_layout_witness :
    encodeMessage sampleMessage = specEncodeMessage8 sampleMessage :=
  encodeMessage_claimed_layout sampleMessage (by decide) (by decide)
    (by decide) (by decide)

/-- C2: the signing digest of `signMessage` is the hash of the lowercase
hexadecimal text (consumed as its character code points) of the hash of the
canonical encoding — the second hash is over the hex string of the first
hash's bytes, not over the raw 32 bytes.  `H` is the SHA-256 primitive,
assumed only to produce bytes. -/
theorem signDigest_two_stage_hex (H : List Nat → List Nat)
    (hH : ∀ x, IsBytes (H x)) (m : Message) :
    signDigest H m =
      H ((specHexChars (H (toUint8Array (encodeMessage m)))).map Char.toNat) := by
  unfold signDigest
  exact congrArg H (strBytes_bytesToHex _ (hH _))

/-- C2 witness: the digest theorem applied to the sample message with a
concrete byte-valued hash function. -/
theorem signDigest_two_stage_hex_witness :
    signDigest sampleHash sampleMessage =
      sampleHash ((specHexChars (sampleHash (toUint8Array (encodeMessage sampleMessage)))).map
        Char.toNat) :=
  signDigest_two_stage_hex sampleHash (fun _ => (by decide : IsBytes [0, 171]))
    sampleMessage

/-- C3: `signMessage` fails with the invalid-private-key error when any
supplied key is not a valid curve scalar; otherwise it returns exactly one
detached Schnorr signature per key, in the order of the supplied keys, each
the hex string of the (fixed-width 64-byte) signature value, hence 128
characters long. -/
theorem signMessage_per_key (H : List Nat → List Nat)
    (sg : List Nat → List Nat → List Nat) (m : Message)
    (signers : List (List Nat)) (hsg : ∀ d k, (sg d k).length = 64) :
    ((∃ k ∈ signers, ¬ isValidPrivateKey k) →
      signMessage H sg m signers = .error "Invalid private key") ∧
    ((∀ k ∈ signers, isValidPrivateKey k) →
      signMessage H sg m signers =
        .ok (signers.map (fun k => bytesToHex (sg (signDigest H m) k))) ∧
      ∀ s ∈ signers.map (fun k => bytesToHex (sg (signDigest H m) k)),
        s.length = 128) := by
  have hunfold : signMessage H sg m signers =
      mapE (fun signer =>
        if isValidPrivateKey signer then
          Except.ok (bytesToHex (sg (signDigest H m) signer))
        else
          Except.error "Invalid private key") signers := rfl
  constructor
  · intro hex
    rw [hunfold]
    refine mapE_error _ _ _ (fun k _ => ?_) ?_
    · by_cases hk : isValidPrivateKey k
      · exact Or.inr ⟨bytesToHex (sg (signDigest H m) k), by simp [hk]⟩
      · exact Or.inl (by simp [hk])
    · rcases hex with ⟨k, hk, hkv⟩
      exact ⟨k, hk, by simp [hkv]⟩
  · intro hval
    constructor
    · rw [hunfold]
      exact mapE_ok _ _ _ (fun k hk => by simp [hval k hk])
    · intro s hs
      rcases List.mem_map.mp hs with ⟨k, _, rfl⟩
      rw [bytesToHex_length, hsg]

/-- C3 witness: signing the sample message with the scalar 1 and a concrete
64-byte signer yields the single expected hex signature. -/
theorem signMessage_per_key_witness :
    signMessage sampleHash (fun _ _ => List.replicate 64 0) sampleMessage [validKey] =
      .ok [bytesToHex (List.replicate 64 0)] :=
  ((signMessage_per_key sampleHash (fun _ _ => List.replicate 64 0) sampleMessage
    [validKey] (fun d k => by simp)).2 (fun k hk => by
      rcases List.mem_singleton.mp hk with rfl
      decide)).1

/-- C4: constructing a `Pubkey` from a byte buffer succeeds exactly when the
buffer holds 32 bytes, fails with the invalid-length error otherwise, and no
`Pubkey` value with any other byte length can exist. -/
theorem pubkey_construction_spec (b : List Nat) :
    ((∃ p, mkPubkey b = .ok p) ↔ b.length = 32) ∧
    (b.length ≠ 32 → mkPubkey b = .error "Pubkey must be 32 bytes") ∧
    (∀ p : Pubkey, p.bytes.length = 32) := by
  refine ⟨⟨?_, ?_⟩, ?_, fun p => p.h32⟩
  · rintro ⟨p, hp⟩
    by_contra hne
    simp [mkPubkey, hne] at hp
  · intro h
    exact ⟨⟨b, h⟩, by simp [mkPubkey, h]⟩
  · intro h
    simp [mkPubkey, h]

/-- C4 witness: the empty buffer is rejected with the exact error. -/
theorem pubkey_construction_spec_witness :
    mkPubkey [] = .error "Pubkey must be 32 bytes" :=
  (pubkey_construction_spec []).2.1 (by decide)

/-- C5: parsing the canonical lowercase hex form of a pubkey back through
`Pubkey.fromString` is the identity on the pubkey (bytes of a `Uint8Array`
are below 256). -/
theorem pubkey_fromString_toString (p : Pubkey) (h : IsBytes p.bytes) :
    Pubkey.fromString p.toString = .ok p := by
  cases p with
  | mk bs h32 =>
    unfold Pubkey.fromString Pubkey.toString bytesToHex
    rw [data_mk, bufferFromHex_encode bs h]
    simp [h32]

/-- C5 witness: the round trip at the system-program pubkey. -/
theorem pubkey_fromString_toString_witness :
    Pubkey.fromString (Pubkey.systemProgram.toString) = .ok Pubkey.systemProgram :=
  pubkey_fromString_toString Pubkey.systemProgram (by decide)

/-- A transaction over the sample message with one hex signature. -/
def sampleTransaction : RuntimeTransaction := ⟨0, ["00ff"], sampleMessage⟩

/-- The empty message. -/
def emptyMessage : Message := ⟨[], []⟩

/-- A signatureless transaction over the empty message. -/
def emptyTransaction : RuntimeTransaction := ⟨0, [], emptyMessage⟩

/-- A second signatureless transaction, distinguished by its version. -/
def emptyTransaction2 : RuntimeTransaction := ⟨1, [], emptyMessage⟩

/-- Wire form of `emptyTransaction`. -/
def emptySerialized : SerializedTransaction := ⟨⟨[], []⟩, [], 0⟩

/-- Wire form of `emptyTransaction2`. -/
def emptySerialized2 : SerializedTransaction := ⟨⟨[], []⟩, [], 1⟩

/-- A transport oracle that always answers with the error object
`{message: "bad request"}`. -/
def badRequestPost : RpcRequest SerializedTransaction → RpcResponse String :=
  fun _ => ⟨some ⟨"bad request"⟩, ""⟩

/-- A transport oracle that always answers with the two transaction ids
`["a", "b"]`. -/
def batchPost : RpcRequest (List SerializedTransaction) → RpcResponse (List String) :=
  fun _ => ⟨none, ["a", "b"]⟩

/-- C6: whenever the signatures decode from hex, `serializeTransaction` maps
every binary field (signer pubkeys, program ids, account pubkeys,
instruction data) to its byte array preserving list order, decodes each
signature hex string to a raw byte array, and passes `version` through
unchanged. -/
theorem serializeTransaction_wire (tx : RuntimeTransaction) (sigs : List (List Nat))
    (h : mapE hexToBytes tx.signatures = .ok sigs) :
    serializeTransaction tx = .ok
      { message := { signers := tx.message.signers.map (fun signer => signer.bytes),
                     instructions := tx.message.instructions.map (fun inst =>
                       { program_id := inst.program_id.bytes,
                         accounts := inst.accounts.map (fun acc =>
                           { pubkey := acc.pubkey.bytes,
                             is_signer := acc.is_signer,
                             is_writable := acc.is_writable }),
                         data := inst.data }) },
        signatures := sigs,
        version := tx.version } := by
  unfold serializeTransaction
  rw [h]
  rfl

/-- C6 witness: the wire form of the sample transaction, with its one
signature decoded from hex. -/
theorem serializeTransaction_wire_witness :
    serializeTransaction sampleTransaction = .ok
      { message := { signers := sampleTransaction.message.signers.map (fun signer => signer.bytes),
                     instructions := sampleTransaction.message.instructions.map (fun inst =>
                       { program_id := inst.program_id.bytes,
                         accounts := inst.accounts.map (fun acc =>
                           { pubkey := acc.pubkey.bytes,
                             is_signer := acc.is_signer,
                             is_writable := acc.is_writable }),
                         data := inst.data }) },
        signatures := [[0, 255]],
        version := sampleTransaction.version } :=
  serializeTransaction_wire sampleTransaction [[0, 255]] rfl

/-- C7: if the gateway's response to `send_transaction` carries an error
object with message `bad request`, the call fails with exactly that message
and exactly one HTTP POST is issued. -/
theorem sendTransaction_bad_request (post : RpcRequest SerializedTransaction → RpcResponse String)
    (tx : RuntimeTransaction) (st : SerializedTransaction) (r : String)
    (hser : serializeTransaction tx = .ok st)
    (hpost : post ⟨"send_transaction", st⟩ = ⟨some ⟨"bad request"⟩, r⟩) :
    sendTransaction post tx [] = (.error "bad request", [⟨"send_transaction", st⟩]) := by
  unfold sendTransaction
  rw [hser]
  simp only [call, httpPost, List.nil_append]
  rw [hpost]

/-- C7 witness: the bad-request oracle at the empty transaction. -/
theorem sendTransaction_bad_request_witness :
    sendTransaction badRequestPost emptyTransaction [] =
      (.error "bad request", [⟨"send_transaction", emptySerialized⟩]) :=
  sendTransaction_bad_request badRequestPost emptyTransaction emptySerialized ""
    rfl rfl

/-- C8: `sendTransactions` on N transactions issues exactly one RPC call
whose params are the N wire-formatted transactions in input order
(element i of the params is the wire form of input i), and when the gateway
answers with one id per transaction it returns exactly N ids, verbatim and
in the gateway's order. -/
theorem sendTransactions_batch (post : RpcRequest (List SerializedTransaction) → RpcResponse (List String))
    (txs : List RuntimeTransaction) (sts : List SerializedTransaction) (ids : List String)
    (hser : mapE serializeTransaction txs = .ok sts)
    (hpost : post ⟨"send_transactions", sts⟩ = ⟨none, ids⟩)
    (hn : ids.length = txs.length) :
    sendTransactions post txs [] = (.ok ids, [⟨"send_transactions", sts⟩]) ∧
    sts.length = txs.length ∧
    (∀ i (hi : i < txs.length) (hi' : i < sts.length),
      serializeTransaction (txs.get ⟨i, hi⟩) = .ok (sts.get ⟨i, hi'⟩)) ∧
    ids.length = txs.length := by
  refine ⟨?_, mapE_ok_length _ _ _ hser, mapE_ok_get _ _ _ hser, hn⟩
  unfold sendTransactions
  rw [hser]
  simp only [call, httpPost, List.nil_append]
  rw [hpost]

/-- C8 witness: a two-transaction batch goes out as one request carrying
both wire forms in order and returns the gateway's two ids. -/
theorem sendTransactions_batch_witness :
    sendTransactions batchPost [emptyTransaction, emptyTransaction2] [] =
      (.ok ["a", "b"], [⟨"send_transactions", [emptySerialized, emptySerialized2]⟩]) ∧
    [emptySerialized, emptySerialized2].length = [emptyTransaction, emptyTransaction2].length ∧
    (∀ i (hi : i < [emptyTransaction, emptyTransaction2].length)
        (hi' : i < [emptySerialized, emptySerialized2].length),
      serializeTransaction ([emptyTransaction, emptyTransaction2].get ⟨i, hi⟩) =
        .ok ([emptySerialized, emptySerialized2].get ⟨i, hi'⟩)) ∧
    ["a", "b"].length = [emptyTransaction, emptyTransaction2].length :=
  sendTransactions_batch batchPost _ _ _ rfl rfl (by decide)

/-- Shape of the canonical encoding of a message with no signers and one
account-less instruction, for a symbolic data payload. -/
theorem encodeMessage_single (pid : Pubkey) (d : List Nat) :
    encodeMessage ⟨[], [⟨pid, [], d⟩]⟩ =
      0 :: 1 :: (pid.bytes ++ 0 :: (le8 d.length ++ d)) := by
  unfold encodeMessage
  simp

/-- C9 counterexample: at a data payload of length `2^64` — one past the
8-byte length-prefix capacity — the canonical encoder does not fail with any
encoding error: it succeeds and emits a wrapped, all-zero length field. -/
theorem encodeMessage_no_overflow_failure :
    hugeData.length = 2 ^ 64 ∧
    encodeMessage hugeMsg =
      0 :: 1 :: (Pubkey.systemProgram.bytes ++ 0 :: (List.replicate 8 0 ++ hugeData)) := by
  have h0 : hugeData = List.replicate (2 ^ 64) 0 := rfl
  have hlen : hugeData.length = 2 ^ 64 := by
    rw [h0, List.length_replicate]
  have hle : le8 (2 ^ 64) = List.replicate 8 0 := by decide
  refine ⟨hlen, ?_⟩
  unfold hugeMsg
  rw [encodeMessage_single, hlen, hle]

/-- C9 (amended): the canonical encoder never fails on oversized data; the
8-byte little-endian length field stores the data length modulo `2^64`,
wrapping instead of erroring (JavaScript array lengths stay below `2^32`,
so the wrap is unreachable in practice). -/
theorem encodeMessage_wraps_length (m : Message) :
    encodeMessage m = specEncodeMessageWrap m :=
  encodeMessage_eq_wrap m

/-- C10: `createArchAccount` derives the signer pubkey by dropping the first
(parity) byte of the 33-byte compressed secp256k1 public key; the resulting
32-byte x-only key is both the sole entry of `message.signers` and the
pubkey of the single (signer, writable) account reference of the
create-account instruction, whose program id is the system program value. -/
theorem createArchAccount_message_shape (getPublicKey : List Nat → List Nat)
    (privateKey : List Nat) (txid : String) (vout : Nat) (d : List Nat)
    (h33 : (getPublicKey privateKey).length = 33)
    (hdata : encodeCreateAccountData txid vout = .ok d) :
    ∃ pk : Pubkey,
      pk.bytes = (getPublicKey privateKey).drop 1 ∧
      createArchAccountMessage getPublicKey privateKey txid vout =
        .ok (pk, { signers := [pk],
                   instructions := [{ program_id := Pubkey.systemProgram,
                                      accounts := [{ pubkey := pk,
                                                     is_signer := true,
                                                     is_writable := true }],
                                      data := d }] }) := by
  have hlen : ((getPublicKey privateKey).drop 1).length = 32 := by
    simp [h33]
  refine ⟨⟨_, hlen⟩, rfl, ?_⟩
  unfold createArchAccountMessage createCreateAccountInstruction createMessage
  simp only [hdata, mkPubkey, hlen, dite_true]
  rfl

/-- C10 witness: a concrete 33-byte compressed key function; the message
holds the dropped-parity 32-byte key as sole signer and account, against
the system program. -/
theorem createArchAccount_message_shape_witness :
    ∃ pk : Pubkey,
      pk.bytes = ((fun (_ : List Nat) => List.replicate 33 2) []).drop 1 ∧
      createArchAccountMessage (fun _ => List.replicate 33 2) [] "" 0 =
        .ok (pk, { signers := [pk],
                   instructions := [{ program_id := Pubkey.systemProgram,
                                      accounts := [{ pubkey := pk,
                                                     is_signer := true,
                                                     is_writable := true }],
                                      data := List.replicate 37 0 }] }) :=
  createArchAccount_message_shape (fun _ => List.replicate 33 2) [] "" 0
    (List.replicate 37 0) (by decide) (by decide)

end ArchSdk
